import Mathlib

/-!
Verification of the AI Stock Analyst client (src/types.ts, src/unnamed/part_000).

The repository is a single-page client application: a top-level controller
owns the query text, the result stocks/sources, the loading/error flags,
a ticker-unique watchlist mirrored to browser local storage, and the active
view tab.  This file gives a shallow embedding of the controller state and
its update functions, translated from the source, and proves the spec's
claims about them.
-/

namespace StockAnalyst

/-- `Stock` from src/types.ts: ticker, company name, growth-potential text,
public-sentiment text. -/
structure Stock where
  ticker : String
  companyName : String
  growthPotential : String
  publicSentiment : String
deriving DecidableEq, Repr

/-- `Source` from src/types.ts: a citation with URI and title. -/
structure Source where
  uri : String
  title : String
deriving DecidableEq, Repr

/-- `GeminiStockResponse` from src/types.ts: the service client's result. -/
structure GeminiStockResponse where
  stocks : List Stock
  sources : List Source
deriving DecidableEq, Repr

/-- The two values of the `view` state (`useState<'search' | 'watchlist'>`). -/
inductive View where
  | search
  | watchlist
deriving DecidableEq, Repr

/-- `handleAddToWatchlist` (part_000, lines 68-73): the functional update
`prev => prev.some(s => s.ticker === stock.ticker) ? prev : [...prev, stock]`. -/
def handleAddToWatchlist (stock : Stock) (prev : List Stock) : List Stock :=
  if prev.any (fun s => s.ticker == stock.ticker) then prev
  else prev ++ [stock]

/-- `handleRemoveFromWatchlist` (part_000, lines 75-77): the functional update
`prev => prev.filter(s => s.ticker !== ticker)`. -/
def handleRemoveFromWatchlist (ticker : String) (prev : List Stock) : List Stock :=
  prev.filter (fun s => s.ticker != ticker)

/-- `isStockInWatchlist` (part_000, lines 79-81):
`watchlist.some(s => s.ticker === ticker)`. -/
def isStockInWatchlist (watchlist : List Stock) (ticker : String) : Bool :=
  watchlist.any (fun s => s.ticker == ticker)

/-- The watchlist data-model invariant: no two entries share a ticker. -/
def WatchlistInv (w : List Stock) : Prop :=
  (w.map Stock.ticker).Nodup

/-- Number of entries of `w` whose ticker is `t`. -/
def tickerCount (t : String) (w : List Stock) : Nat :=
  w.countP (fun s => s.ticker == t)

/-- The controller state owned by `App` (part_000, lines 10-16): query text,
result stocks and sources, loading flag, error message, watchlist, view tab. -/
structure AppState where
  query : String
  stocks : List Stock
  sources : List Source
  loading : Bool
  error : Option String
  watchlist : List Stock
  view : View
deriving DecidableEq, Repr

/-- Outcome of the awaited `fetchPromisingStocks` call, as observed by
`handleSubmit`'s try/catch: the promise resolves with a response, rejects
with an `Error` carrying a message, or rejects with a non-`Error` value. -/
inductive ServiceOutcome where
  | success (r : GeminiStockResponse)
  | failure (msg : String)
  | failureUnknown
deriving DecidableEq, Repr

/-- The state updates `handleSubmit` performs after validation and before
awaiting the service call (part_000, lines 42-46): set view to search, set
loading, clear error, stocks and sources. -/
def submitStart (st : AppState) : AppState :=
  { st with view := View.search, loading := true, error := none,
            stocks := [], sources := [] }

/-- The state updates of `handleSubmit`'s try/catch/finally around the
service call (part_000, lines 48-59): on success store stocks and sources;
on a recognized `Error` store the prefixed message; otherwise store the
generic message; finally clear the loading flag. -/
def submitFinish (st : AppState) (svc : ServiceOutcome) : AppState :=
  let st1 :=
    match svc with
    | ServiceOutcome.success r => { st with stocks := r.stocks, sources := r.sources }
    | ServiceOutcome.failure m =>
        { st with error := some ("Failed to fetch stock data: " ++ m ++ ". Please try again.") }
    | ServiceOutcome.failureUnknown => { st with error := some "An unknown error occurred." }
  { st1 with loading := false }

/-- The guard `!currentQuery.trim()` of `handleSubmit` (part_000, line 38):
the trimmed query is empty exactly when every character is whitespace. -/
def isBlank (q : String) : Bool :=
  q.data.all Char.isWhitespace

/-- `handleSubmit` (part_000, lines 37-61) as a state transformer.  `svc` is
what the service call would yield if invoked.  The second component records
whether `fetchPromisingStocks` was invoked: the blank-query guard returns
early with the validation message and never calls the service. -/
def handleSubmit (st : AppState) (currentQuery : String) (svc : ServiceOutcome) :
    AppState × Bool :=
  if isBlank currentQuery then
    ({ st with error := some "Please enter a topic to search for." }, false)
  else
    (submitFinish (submitStart st) svc, true)

/-! ### Persistence

The persist effect (part_000, lines 29-35) writes
`JSON.stringify(watchlist)` under the key `stockWatchlist`; the hydrate
effect (part_000, lines 18-27) reads that key and, when a non-empty string
is present, applies `JSON.parse` inside a try/catch.  `JSON.stringify` and
`JSON.parse` are platform builtins, not repository code, so they are
modelled here as an executable serializer and parser for arrays of
`Stock` records, with `"` and `\` escaped inside string values. -/

/-- Modelled from the spec: string-value escaping of the platform
serializer — `"` and `\` are preceded by a backslash. -/
def escapeChars : List Char → List Char
  | [] => []
  | c :: cs =>
    if c = '"' ∨ c = '\\' then '\\' :: c :: escapeChars cs
    else c :: escapeChars cs

/-- Modelled from the spec: a JSON string literal for `s`. -/
def encodeStr (s : String) : List Char :=
  '"' :: escapeChars s.data ++ ['"']

/-- Literal opening a serialized `Stock` object up to its first value. -/
def keyTicker : List Char :=
  ['\x7b', '"', 't', 'i', 'c', 'k', 'e', 'r', '"', ':']

/-- Literal between the ticker value and the company-name value. -/
def keyCompanyName : List Char :=
  [',', '"', 'c', 'o', 'm', 'p', 'a', 'n', 'y', 'N', 'a', 'm', 'e', '"', ':']

/-- Literal between the company-name value and the growth-potential value. -/
def keyGrowthPotential : List Char :=
  [',', '"', 'g', 'r', 'o', 'w', 't', 'h', 'P', 'o', 't', 'e', 'n', 't', 'i', 'a', 'l', '"', ':']

/-- Literal between the growth-potential value and the public-sentiment value. -/
def keyPublicSentiment : List Char :=
  [',', '"', 'p', 'u', 'b', 'l', 'i', 'c', 'S', 'e', 'n', 't', 'i', 'm', 'e', 'n', 't', '"', ':']

/-- Modelled from the spec: `JSON.stringify` of one `Stock` object, keys in
declaration order as the platform serializer emits them. -/
def encodeStock (s : Stock) : List Char :=
  keyTicker ++ encodeStr s.ticker ++
  keyCompanyName ++ encodeStr s.companyName ++
  keyGrowthPotential ++ encodeStr s.growthPotential ++
  keyPublicSentiment ++ encodeStr s.publicSentiment ++ ['\x7d']

/-- Remaining elements of a serialized array after the first: each later
element is preceded by a comma, and the array is closed by `]`. -/
def encodeStocksTail : List Stock → List Char
  | [] => [']']
  | s :: ss => ',' :: (encodeStock s ++ encodeStocksTail ss)

/-- Modelled from the spec: `JSON.stringify` of the whole watchlist array. -/
def serializeChars : List Stock → List Char
  | [] => ['[', ']']
  | s :: ss => '[' :: (encodeStock s ++ encodeStocksTail ss)

/-- The string written to storage by the persist effect. -/
def serializeWatchlist (w : List Stock) : String :=
  String.mk (serializeChars w)

/-- Consume an expected literal from the front of the input. -/
def expectLit : List Char → List Char → Option (List Char)
  | [], l => some l
  | _ :: _, [] => none
  | p :: ps, c :: cs => if c = p then expectLit ps cs else none

/-- Body of a JSON string literal after its opening quote: stop at an
unescaped `"`, unescape backslash pairs. -/
def stringBody : List Char → Option (List Char × List Char)
  | [] => none
  | c :: cs =>
    if c = '\\' then
      match cs with
      | [] => none
      | d :: ds =>
        match stringBody ds with
        | none => none
        | some (b, rest) => some (d :: b, rest)
    else if c = '"' then some ([], cs)
    else
      match stringBody cs with
      | none => none
      | some (b, rest) => some (c :: b, rest)

/-- A JSON string literal, quote to quote. -/
def jsonString : List Char → Option (String × List Char)
  | [] => none
  | c :: cs =>
    if c = '"' then
      match stringBody cs with
      | none => none
      | some (b, rest) => some (String.mk b, rest)
    else none

/-- One serialized `Stock` object. -/
def jsonStock (l : List Char) : Option (Stock × List Char) :=
  (expectLit keyTicker l).bind fun l1 =>
  (jsonString l1).bind fun (t, l2) =>
  (expectLit keyCompanyName l2).bind fun l3 =>
  (jsonString l3).bind fun (cn, l4) =>
  (expectLit keyGrowthPotential l4).bind fun l5 =>
  (jsonString l5).bind fun (g, l6) =>
  (expectLit keyPublicSentiment l6).bind fun l7 =>
  (jsonString l7).bind fun (p, l8) =>
  (expectLit ['\x7d'] l8).bind fun l9 =>
  some (⟨t, cn, g, p⟩, l9)

/-- Elements of a serialized array after the first, fuelled by the input
length (each step consumes at least one character). -/
def jsonTail : Nat → List Char → Option (List Stock × List Char)
  | 0, _ => none
  | _ + 1, [] => none
  | fuel + 1, c :: cs =>
    if c = ']' then some ([], cs)
    else if c = ',' then
      (jsonStock cs).bind fun (s, l1) =>
      (jsonTail fuel l1).bind fun (ss, l2) =>
      some (s :: ss, l2)
    else none

/-- Modelled from the spec: `JSON.parse` restricted to the serialized
watchlist shape; `none` is a parse failure (the builtin would throw). -/
def parseWatchlistChars : List Char → Option (List Stock)
  | [] => none
  | c :: cs =>
    if c = '[' then
      if cs = [']'] then some []
      else
        (jsonStock cs).bind fun (s, l1) =>
        (jsonTail l1.length l1).bind fun (ss, l2) =>
        if l2 = [] then some (s :: ss) else none
    else none

/-- String-level entry point of the modelled `JSON.parse`. -/
def parseWatchlist (s : String) : Option (List Stock) :=
  parseWatchlistChars s.data

/-- What `localStorage.getItem('stockWatchlist')` yields at startup: a value
(possibly absent), or a thrown storage error caught by the surrounding
try/catch. -/
inductive StorageRead where
  | err
  | ok (v : Option String)
deriving DecidableEq

/-- Result of the hydrate effect: the initialized watchlist, and whether a
failure was logged via `console.error`. -/
structure HydrateResult where
  watchlist : List Stock
  logged : Bool
deriving DecidableEq, Repr

/-- The hydrate effect (part_000, lines 18-27): read the stored value; a
missing or empty (falsy) value leaves the watchlist empty; a present value
is parsed, and any read or parse failure is caught, logged, and leaves the
watchlist empty. -/
def hydrateWatchlist (r : StorageRead) : HydrateResult :=
  match r with
  | StorageRead.err => ⟨[], true⟩
  | StorageRead.ok none => ⟨[], false⟩
  | StorageRead.ok (some s) =>
    if s = "" then ⟨[], false⟩
    else
      match parseWatchlist s with
      | some w => ⟨w, false⟩
      | none => ⟨[], true⟩

/-- Hydration at the `App` state level: only the watchlist field is touched;
in particular no error is surfaced to the user. -/
def hydrateApp (st : AppState) (r : StorageRead) : AppState :=
  { st with watchlist := (hydrateWatchlist r).watchlist }

/-- The persist effect (part_000, lines 29-35): serialize the full watchlist
to the stored string. -/
def persistWatchlist (w : List Stock) : String :=
  serializeWatchlist w

/-- Watchlist states reachable through the lifecycle of §3 of the spec:
created empty; hydrated at startup from storage that is absent, unreadable,
corrupt, or holds a previously persisted watchlist; mutated only by
`handleAddToWatchlist` and `handleRemoveFromWatchlist`. -/
inductive ReachableWatchlist : List Stock → Prop where
  | init : ReachableWatchlist []
  | hydrateAbsent : ReachableWatchlist (hydrateWatchlist (StorageRead.ok none)).watchlist
  | hydrateFailed : ReachableWatchlist (hydrateWatchlist StorageRead.err).watchlist
  | hydrateCorrupt (s : String) (h : parseWatchlist s = none) :
      ReachableWatchlist (hydrateWatchlist (StorageRead.ok (some s))).watchlist
  | hydratePersisted (w : List Stock) (hw : ReachableWatchlist w) :
      ReachableWatchlist (hydrateWatchlist (StorageRead.ok (some (persistWatchlist w)))).watchlist
  | add (w : List Stock) (s : Stock) (hw : ReachableWatchlist w) :
      ReachableWatchlist (handleAddToWatchlist s w)
  | remove (w : List Stock) (t : String) (hw : ReachableWatchlist w) :
      ReachableWatchlist (handleRemoveFromWatchlist t w)

/-- Example stock used to instantiate universally quantified claims. -/
def exStock : Stock :=
  ⟨"NVDA", "Nvidia", "high growth", "positive"⟩

/-- Example source used to instantiate universally quantified claims. -/
def exSource : Source :=
  ⟨"https://x", "Y"⟩

/-- Example controller state used to instantiate universally quantified
claims; its active view is the watchlist tab. -/
def exState : AppState :=
  ⟨"AI technology stocks", [], [], false, none, [], View.watchlist⟩

/-! ### Round-trip lemmas for the persistence serializer -/

theorem expectLit_append (pre rest : List Char) :
    expectLit pre (pre ++ rest) = some rest := by
  induction pre with
  | nil => rfl
  | cons p ps ih => simp [expectLit, ih]

theorem stringBody_escape (s rest : List Char) :
    stringBody (escapeChars s ++ '"' :: rest) = some (s, rest) := by
  induction s with
  | nil =>
    rw [escapeChars, List.nil_append, stringBody.eq_def]
    simp
  | cons c cs ih =>
    by_cases h : c = '"' ∨ c = '\\'
    · rw [escapeChars, if_pos h]
      rw [List.cons_append, List.cons_append, stringBody.eq_def]
      simp [ih]
    · push_neg at h
      rw [escapeChars, if_neg (by tauto), List.cons_append, stringBody.eq_def]
      simp [h.1, h.2, ih]

theorem jsonString_encode (s : String) (rest : List Char) :
    jsonString (encodeStr s ++ rest) = some (s, rest) := by
  have h := stringBody_escape s.data rest
  simp only [encodeStr, List.cons_append, List.append_assoc, List.singleton_append]
  simp [jsonString, h]

theorem jsonStock_encode (s : Stock) (rest : List Char) :
    jsonStock (encodeStock s ++ rest) = some (s, rest) := by
  simp only [encodeStock, List.append_assoc]
  simp [jsonStock, expectLit_append, jsonString_encode, List.singleton_append, expectLit]

theorem jsonTail_encode (ss : List Stock) :
    ∀ (rest : List Char) (fuel : Nat),
      (encodeStocksTail ss ++ rest).length ≤ fuel →
      jsonTail fuel (encodeStocksTail ss ++ rest) = some (ss, rest) := by
  induction ss with
  | nil =>
    intro rest fuel h
    cases fuel with
    | zero => simp [encodeStocksTail] at h
    | succ f => simp [encodeStocksTail, jsonTail]
  | cons s ss ih =>
    intro rest fuel h
    cases fuel with
    | zero => simp [encodeStocksTail] at h
    | succ f =>
      have hlen : (encodeStocksTail ss ++ rest).length ≤ f := by
        simp only [encodeStocksTail, List.cons_append, List.length_cons,
          List.length_append] at h ⊢
        omega
      simp only [encodeStocksTail, List.cons_append, List.append_assoc]
      simp [jsonTail, jsonStock_encode, ih _ _ hlen]

theorem parse_serialize (w : List Stock) :
    parseWatchlistChars (serializeChars w) = some w := by
  cases w with
  | nil => rfl
  | cons s ss =>
    have hne : encodeStock s ++ encodeStocksTail ss ≠ [']'] := by
      simp [encodeStock, keyTicker]
    have htail := jsonTail_encode ss [] (encodeStocksTail ss).length (by simp)
    simp only [serializeChars, parseWatchlistChars, if_pos rfl, hne, if_neg,
      not_false_iff]
    rw [show encodeStock s ++ encodeStocksTail ss =
      encodeStock s ++ (encodeStocksTail ss ++ []) by simp]
    simp only [jsonStock_encode, Option.some_bind, List.append_nil] at *
    simp [htail]

theorem serialize_ne_empty (w : List Stock) : serializeWatchlist w ≠ "" := by
  cases w <;> simp [serializeWatchlist, serializeChars, String.ext_iff]

theorem parseWatchlist_serialize (w : List Stock) :
    parseWatchlist (serializeWatchlist w) = some w := by
  simpa [parseWatchlist, serializeWatchlist] using parse_serialize w

/-! ### Watchlist lemmas -/

theorem watchlistInv_nil : WatchlistInv [] := by
  simp [WatchlistInv]

theorem watchlistInv_add (s : Stock) (w : List Stock) (h : WatchlistInv w) :
    WatchlistInv (handleAddToWatchlist s w) := by
  unfold handleAddToWatchlist
  by_cases hc : w.any (fun x => x.ticker == s.ticker) = true
  · simpa [hc] using h
  · rw [if_neg (by simpa using hc)]
    have hnot : s.ticker ∉ w.map Stock.ticker := by
      simp only [List.any_eq_true, beq_iff_eq] at hc
      push_neg at hc
      simp only [List.mem_map, not_exists]
      rintro x ⟨hx, he⟩
      exact hc x hx he
    simp only [WatchlistInv, List.map_append, List.map_cons, List.map_nil]
    rw [List.nodup_append]
    refine ⟨h, List.nodup_singleton _, fun a ha ha' => ?_⟩
    simp only [List.mem_singleton] at ha'
    exact hnot (ha' ▸ ha)

theorem watchlistInv_remove (t : String) (w : List Stock) (h : WatchlistInv w) :
    WatchlistInv (handleRemoveFromWatchlist t w) :=
  List.Nodup.sublist (List.Sublist.map _ (List.filter_sublist w)) h

theorem hydrate_persist (w : List Stock) :
    hydrateWatchlist (StorageRead.ok (some (persistWatchlist w))) = ⟨w, false⟩ := by
  simp [hydrateWatchlist, persistWatchlist, serialize_ne_empty w,
    parseWatchlist_serialize w]

theorem any_ticker_add (W : List Stock) (s : Stock) (t : String) (h : s.ticker = t) :
    (handleAddToWatchlist s W).any (fun x => x.ticker == t) = true := by
  unfold handleAddToWatchlist
  by_cases hc : W.any (fun x => x.ticker == s.ticker) = true
  · rw [if_pos hc]
    rw [h] at hc
    exact hc
  · rw [if_neg (by simpa using hc)]
    simp [h]

theorem tickerCount_eq (t : String) (w : List Stock) :
    tickerCount t w = (w.map Stock.ticker).count t := by
  rw [tickerCount, List.count, List.countP_map]
  rfl

theorem add_noop_of_mem (W : List Stock) (s : Stock)
    (h : W.any (fun x => x.ticker == s.ticker) = true) :
    handleAddToWatchlist s W = W := by
  simp [handleAddToWatchlist, h]

/-! ### Claims -/

/-- C1: every watchlist state reachable through the lifecycle — created
empty, hydrated from persisted storage at startup, then mutated only by
`handleAddToWatchlist` and `handleRemoveFromWatchlist` — never contains two
entries with the same ticker. -/
theorem C1_watchlist_ticker_unique (w : List Stock) (h : ReachableWatchlist w) :
    WatchlistInv w := by
  induction h with
  | init => exact watchlistInv_nil
  | hydrateAbsent => exact watchlistInv_nil
  | hydrateFailed => exact watchlistInv_nil
  | hydrateCorrupt s hs =>
    by_cases he : s = "" <;> simp [hydrateWatchlist, he, hs, WatchlistInv]
  | hydratePersisted w hw ih => rw [hydrate_persist]; exact ih
  | add w s hw ih => exact watchlistInv_add s w ih
  | remove w t hw ih => exact watchlistInv_remove t w ih

/-- Concrete instance of C1: the state reached by one add from the empty
watchlist satisfies the uniqueness invariant. -/
theorem C1_witness :
    WatchlistInv (handleAddToWatchlist ⟨"NVDA", "Nvidia", "high growth", "positive"⟩ []) :=
  C1_watchlist_ticker_unique _
    (ReachableWatchlist.add [] ⟨"NVDA", "Nvidia", "high growth", "positive"⟩
      ReachableWatchlist.init)

/-- C2: on a ticker-unique watchlist, adding a stock with ticker `t` and then
adding any stock with the same ticker leaves the list unchanged (the second
add is a no-op), and the result contains exactly one entry with ticker `t`. -/
theorem C2_add_idempotent_unique (W : List Stock) (s1 s2 : Stock) (t : String)
    (h1 : s1.ticker = t) (h2 : s2.ticker = t) (hW : WatchlistInv W) :
    handleAddToWatchlist s2 (handleAddToWatchlist s1 W) = handleAddToWatchlist s1 W ∧
    tickerCount t (handleAddToWatchlist s1 W) = 1 := by
  have hmem := any_ticker_add W s1 t h1
  constructor
  · exact add_noop_of_mem _ s2 (by rw [h2]; exact hmem)
  · rw [tickerCount_eq]
    unfold handleAddToWatchlist
    by_cases hc : W.any (fun x => x.ticker == s1.ticker) = true
    · rw [if_pos hc]
      have hle := List.nodup_iff_count_le_one.mp hW t
      have hmem' : t ∈ W.map Stock.ticker := by
        simp only [List.any_eq_true, beq_iff_eq] at hc
        obtain ⟨x, hx, he⟩ := hc
        exact List.mem_map.mpr ⟨x, hx, by rw [he, h1]⟩
      have hge := List.count_pos_iff.mpr hmem'
      omega
    · rw [if_neg (by simpa using hc)]
      have h0 : (W.map Stock.ticker).count t = 0 := by
        rw [List.count_eq_zero]
        simp only [List.any_eq_true, beq_iff_eq] at hc
        push_neg at hc
        simp only [List.mem_map, not_exists]
        rintro x ⟨hx, he⟩
        exact hc x hx (he.trans h1.symm)
      simp [List.map_append, h0, h1]

/-- Concrete instance of C2: adding two distinct stocks that share the ticker
`NVDA` to the empty watchlist keeps a single `NVDA` entry. -/
theorem C2_witness :
    handleAddToWatchlist ⟨"NVDA", "NVIDIA Corp", "strong", "bullish"⟩
        (handleAddToWatchlist ⟨"NVDA", "Nvidia", "high growth", "positive"⟩ []) =
      handleAddToWatchlist ⟨"NVDA", "Nvidia", "high growth", "positive"⟩ [] ∧
    tickerCount "NVDA" (handleAddToWatchlist ⟨"NVDA", "Nvidia", "high growth", "positive"⟩ []) = 1 :=
  C2_add_idempotent_unique [] _ _ "NVDA" rfl rfl (by simp [WatchlistInv])

/-- C3: removing a ticker absent from the watchlist leaves it unchanged, and
in general `handleRemoveFromWatchlist` keeps exactly the entries whose
ticker differs from the removed one. -/
theorem C3_remove_semantics (W : List Stock) (t : String) :
    ((∀ s ∈ W, s.ticker ≠ t) → handleRemoveFromWatchlist t W = W) ∧
    (∀ s : Stock, s ∈ handleRemoveFromWatchlist t W ↔ s ∈ W ∧ s.ticker ≠ t) := by
  constructor
  · intro h
    simp only [handleRemoveFromWatchlist]
    rw [List.filter_eq_self]
    intro a ha
    simpa [bne_iff_ne] using h a ha
  · intro s
    simp [handleRemoveFromWatchlist, List.mem_filter, bne_iff_ne]

/-- Concrete instance of C3: removing the absent ticker `TSLA` leaves a
one-entry watchlist unchanged. -/
theorem C3_witness :
    handleRemoveFromWatchlist "TSLA" [⟨"NVDA", "Nvidia", "high growth", "positive"⟩] =
      [⟨"NVDA", "Nvidia", "high growth", "positive"⟩] :=
  (C3_remove_semantics [⟨"NVDA", "Nvidia", "high growth", "positive"⟩] "TSLA").1
    (by decide)

/-- C4: the membership test reports true immediately after adding a stock
with ticker `t` and false immediately after removing `t`. -/
theorem C4_contains_after_add_remove (W : List Stock) (s : Stock) (t : String)
    (h : s.ticker = t) :
    isStockInWatchlist (handleAddToWatchlist s W) t = true ∧
    isStockInWatchlist (handleRemoveFromWatchlist t W) t = false := by
  constructor
  · exact any_ticker_add W s t h
  · simp only [isStockInWatchlist, handleRemoveFromWatchlist]
    rw [List.any_eq_false]
    intro x hx
    simp only [List.mem_filter, bne_iff_ne] at hx
    simp [hx.2]

/-- Concrete instance of C4 on the empty watchlist and ticker `NVDA`. -/
theorem C4_witness :
    isStockInWatchlist
        (handleAddToWatchlist ⟨"NVDA", "Nvidia", "high growth", "positive"⟩ []) "NVDA" = true ∧
    isStockInWatchlist (handleRemoveFromWatchlist "NVDA" []) "NVDA" = false :=
  C4_contains_after_add_remove [] ⟨"NVDA", "Nvidia", "high growth", "positive"⟩ "NVDA" rfl

/-- C5: a query that is empty or consists only of whitespace never invokes
the service client and sets the validation message as the error; the rest of
the state is unchanged. -/
theorem C5_blank_query (st : AppState) (q : String) (svc : ServiceOutcome)
    (h : ∀ c ∈ q.data, c.isWhitespace) :
    (handleSubmit st q svc).2 = false ∧
    (handleSubmit st q svc).1 =
      { st with error := some "Please enter a topic to search for." } := by
  have hb : isBlank q = true := by
    simpa [isBlank, List.all_eq_true] using h
  simp [handleSubmit, hb]

/-- Concrete instance of C5: submitting three spaces from the example state
skips the service and sets the validation message. -/
theorem C5_witness :
    (handleSubmit exState "   " ServiceOutcome.failureUnknown).2 = false ∧
    (handleSubmit exState "   " ServiceOutcome.failureUnknown).1 =
      { exState with error := some "Please enter a topic to search for." } :=
  C5_blank_query exState "   " ServiceOutcome.failureUnknown (by decide)

/-- C6: on a non-blank query, a service failure carrying message `m` yields
the fixed prefix combined with `m` as the error with an empty stocks list,
and an unrecognized failure yields the generic fallback message. -/
theorem C6_failure_messages (st : AppState) (q : String) (m : String)
    (h : isBlank q = false) :
    (handleSubmit st q (ServiceOutcome.failure m)).1.error =
        some ("Failed to fetch stock data: " ++ m ++ ". Please try again.") ∧
    (handleSubmit st q (ServiceOutcome.failure m)).1.stocks = [] ∧
    (handleSubmit st q ServiceOutcome.failureUnknown).1.error =
        some "An unknown error occurred." := by
  simp [handleSubmit, h, submitStart, submitFinish]

/-- Concrete instance of C6: a rejection with message `timeout` produces
exactly the message of the spec's scenario, with no stocks. -/
theorem C6_witness :
    (handleSubmit exState "AI technology stocks" (ServiceOutcome.failure "timeout")).1.error =
        some "Failed to fetch stock data: timeout. Please try again." ∧
    (handleSubmit exState "AI technology stocks" (ServiceOutcome.failure "timeout")).1.stocks = [] ∧
    (handleSubmit exState "AI technology stocks" ServiceOutcome.failureUnknown).1.error =
        some "An unknown error occurred." :=
  C6_failure_messages exState "AI technology stocks" "timeout" (by decide)

/-- C7: on a non-blank query, `handleSubmit` first applies `submitStart`
(error reset to none, stocks and sources cleared, loading set) and invokes
the service on that state; `submitFinish` then stores the returned stocks
and sources on success, stores an error message on either kind of failure,
and clears the loading flag in every case. -/
theorem C7_submit_lifecycle (st : AppState) (q : String) (svc : ServiceOutcome)
    (h : isBlank q = false) :
    handleSubmit st q svc = (submitFinish (submitStart st) svc, true) ∧
    (submitStart st).error = none ∧
    (submitStart st).stocks = [] ∧
    (submitStart st).sources = [] ∧
    (submitStart st).loading = true ∧
    (∀ r : GeminiStockResponse,
        (submitFinish (submitStart st) (ServiceOutcome.success r)).stocks = r.stocks ∧
        (submitFinish (submitStart st) (ServiceOutcome.success r)).sources = r.sources ∧
        (submitFinish (submitStart st) (ServiceOutcome.success r)).error = none) ∧
    (∀ m : String, ∃ e,
        (submitFinish (submitStart st) (ServiceOutcome.failure m)).error = some e) ∧
    (∃ e, (submitFinish (submitStart st) ServiceOutcome.failureUnknown).error = some e) ∧
    (∀ o : ServiceOutcome, (submitFinish (submitStart st) o).loading = false) := by
  refine ⟨by simp [handleSubmit, h], rfl, rfl, rfl, rfl,
    fun r => ⟨rfl, rfl, rfl⟩, fun m => ⟨_, rfl⟩, ⟨_, rfl⟩, fun o => ?_⟩
  cases o <;> rfl

/-- Concrete instance of C7: a successful submission from the example state
stores the returned stock and source and ends with the loading flag off. -/
theorem C7_witness :
    handleSubmit exState "AI technology stocks" (ServiceOutcome.success ⟨[exStock], [exSource]⟩) =
      (submitFinish (submitStart exState) (ServiceOutcome.success ⟨[exStock], [exSource]⟩), true) ∧
    (submitStart exState).error = none ∧
    (submitStart exState).loading = true ∧
    (submitFinish (submitStart exState) (ServiceOutcome.success ⟨[exStock], [exSource]⟩)).stocks = [exStock] ∧
    (submitFinish (submitStart exState) (ServiceOutcome.success ⟨[exStock], [exSource]⟩)).sources = [exSource] ∧
    (submitFinish (submitStart exState) (ServiceOutcome.success ⟨[exStock], [exSource]⟩)).loading = false := by
  have h := C7_submit_lifecycle exState "AI technology stocks"
    (ServiceOutcome.success ⟨[exStock], [exSource]⟩) (by decide)
  exact ⟨h.1, h.2.1, h.2.2.2.2.1,
    (h.2.2.2.2.2.1 ⟨[exStock], [exSource]⟩).1,
    (h.2.2.2.2.2.1 ⟨[exStock], [exSource]⟩).2.1,
    h.2.2.2.2.2.2.2.2 _⟩

/-- C8: when the startup storage read throws, or yields a non-empty value
that fails to parse, hydration leaves the watchlist empty, logs the failure,
and surfaces no error to the user. -/
theorem C8_hydrate_failure (st : AppState) (r : StorageRead)
    (h : r = StorageRead.err ∨
        ∃ s, r = StorageRead.ok (some s) ∧ s ≠ "" ∧ parseWatchlist s = none) :
    (hydrateWatchlist r).watchlist = [] ∧
    (hydrateWatchlist r).logged = true ∧
    (hydrateApp st r).error = st.error := by
  have hmain : hydrateWatchlist r = ⟨[], true⟩ := by
    rcases h with h | ⟨s, hr, hne, hp⟩
    · rw [h]
      rfl
    · rw [hr]
      simp [hydrateWatchlist, hne, hp]
  exact ⟨by rw [hmain], by rw [hmain], rfl⟩

/-- Concrete instance of C8: hydrating from the malformed stored value
`not json` initializes an empty watchlist, logs, and leaves the user-facing
error untouched. -/
theorem C8_witness :
    (hydrateWatchlist (StorageRead.ok (some "not json"))).watchlist = [] ∧
    (hydrateWatchlist (StorageRead.ok (some "not json"))).logged = true ∧
    (hydrateApp exState (StorageRead.ok (some "not json"))).error = exState.error :=
  C8_hydrate_failure exState (StorageRead.ok (some "not json"))
    (Or.inr ⟨"not json", rfl, by decide, by decide⟩)

/-- C9: hydrating from the value the persist effect just wrote restores the
watchlist exactly, with no failure logged (persist/hydrate round-trip). -/
theorem C9_persist_hydrate_roundtrip (w : List Stock) :
    hydrateWatchlist (StorageRead.ok (some (persistWatchlist w))) = ⟨w, false⟩ :=
  hydrate_persist w

/-- C10: a non-blank submission sets the active view to the search tab in
`submitStart`, before the service call, and it is still the search tab when
the submission completes; a blank submission leaves the view unchanged. -/
theorem C10_view_behavior (st : AppState) (q : String) (svc : ServiceOutcome) :
    (isBlank q = false →
      (submitStart st).view = View.search ∧
      (handleSubmit st q svc).1.view = View.search) ∧
    (isBlank q = true → (handleSubmit st q svc).1.view = st.view) := by
  constructor
  · intro h
    refine ⟨rfl, ?_⟩
    simp only [handleSubmit, h, Bool.false_eq_true, if_false]
    cases svc <;> rfl
  · intro h
    simp [handleSubmit, h]

/-- Concrete instance of C10: submitting a non-blank query while the
watchlist tab is active switches the view to the search tab. -/
theorem C10_witness :
    (submitStart exState).view = View.search ∧
    (handleSubmit exState "AI technology stocks" ServiceOutcome.failureUnknown).1.view =
      View.search :=
  (C10_view_behavior exState "AI technology stocks" ServiceOutcome.failureUnknown).1
    (by decide)

end StockAnalyst
